import Mathlib

/-!
Verification development for the scene-graph management layer of the
gz-rendering repository.  The repository ships the Scene test-suite
(`test/common_test/Scene_TEST.cc`) and an example viewer, but the Scene,
Node, Visual and Material implementation classes themselves are not part
of the sources; every definition below that embeds that missing code is
therefore modelled from the specification (`spec.md`), faithful to its
words, and each such definition carries a doc comment saying so.

Conventions of the shallow embedding:
* node handles are their numeric ids (`Nat`); the root visual is id `0`
  and is never part of the visual registry (`VisualCount` excludes it);
* the children map, the node-name map and the per-visual sub-mesh list
  are association lists keyed by node id;
* material names are `String`s; a simulation-time duration is an `Int`
  count of clock ticks;
* fallible mutators return `Bool × Scene` (success flag and new state),
  exactly mirroring the boolean success-flag policy of spec section 7.
-/

/-- Modelled from the spec (section 3, Geometry/SubMesh data model, missing
`SubMesh` class): a sub-mesh optionally references a registered material by
name, and records whether it exclusively owns that registry entry (a cloned
or default material) or merely shares it. -/
structure SubMeshState where
  material : Option String
  owns : Bool
deriving DecidableEq, Repr

/-- Modelled from the spec (section 3, Scene data model, missing `Scene`,
`Node`, `Visual` classes): the scene owns the visual registry, the
parent/child structure (as an association list from a node id to its ordered
children), the node-name map, the per-visual sub-mesh lists, the material
registry, the simulation clock, the sky flag, the optional background
material and the directional-light shadow texture size. -/
structure Scene where
  visuals : List Nat
  children : List (Nat × List Nat)
  nodeNames : List (Nat × String)
  geoms : List (Nat × List SubMeshState)
  materials : List String
  time : Int
  skyEnabled : Bool
  backgroundMaterial : Option String
  shadowDirSize : Nat
deriving DecidableEq, Repr

/-- Modelled from the spec (section 3 defaults): a freshly created scene has
empty registries, time zero, sky disabled, no background material and the
directional shadow texture size at its default 2048. -/
def initScene : Scene :=
  { visuals := [], children := [], nodeNames := [], geoms := [], materials := [],
    time := 0, skyEnabled := false, backgroundMaterial := none, shadowDirSize := 2048 }

/-- First value bound to a key in an association list keyed by node id. -/
def alist {α : Type} : List (Nat × α) → Nat → Option α
  | [], _ => none
  | e :: es, k => if e.1 = k then some e.2 else alist es k

/-- Modelled from the spec (section 4.1 `ChildByIndex`-style queries over the
immediate-children sequence): the ordered children of a node. -/
def childrenOf (s : Scene) (p : Nat) : List Nat :=
  (alist s.children p).getD []

/-- First key of the association list whose child list contains `c`. -/
def parentIn : List (Nat × List Nat) → Nat → Option Nat
  | [], _ => none
  | e :: es, c => if c ∈ e.2 then some e.1 else parentIn es c

/-- Modelled from the spec (section 4.1 `Parent()` query, missing `Node`
class): the parent of a node, derived from the children structure so that
the parent edge and the child edge are mutually consistent by construction. -/
def parentOf (s : Scene) (c : Nat) : Option Nat :=
  parentIn s.children c

/-- Modelled from the spec (section 4.1 `HasChild` query). -/
def hasChild (s : Scene) (p c : Nat) : Bool :=
  decide (c ∈ childrenOf s p)

/-- Modelled from the spec (section 4.2 `HasVisual` query). -/
def hasVisual (s : Scene) (v : Nat) : Bool :=
  decide (v ∈ s.visuals)

/-- Modelled from the spec (section 4.2 `VisualCount` query). -/
def visualCount (s : Scene) : Nat :=
  s.visuals.length

/-- Fuel-bounded walk up the parent chain. -/
def ancestorsAux (s : Scene) : Nat → Nat → List Nat
  | 0, _ => []
  | fuel + 1, n =>
    match parentOf s n with
    | none => []
    | some p => p :: ancestorsAux s fuel p

/-- Modelled from the spec (section 4.1: the cycle check "walks the ancestor
chain of the prospective parent; O(depth)"): the ancestor chain of a node,
with fuel bounded by the size of the children structure. -/
def ancestors (s : Scene) (n : Nat) : List Nat :=
  ancestorsAux s (s.children.length + 1) n

/-- Remove a node from every child list (used before re-attaching: the spec
says re-parenting is allowed and a previous parent loses the child). -/
def detachEverywhere (s : Scene) (c : Nat) : Scene :=
  { s with children := s.children.map (fun e => (e.1, e.2.filter (fun x => x ≠ c))) }

/-- Append a child to the end of a parent's child list (insertion order),
creating the parent's entry when absent. -/
def attachChild (s : Scene) (p c : Nat) : Scene :=
  if s.children.any (fun e => e.1 = p) then
    { s with children := s.children.map (fun e => if e.1 = p then (e.1, e.2 ++ [c]) else e) }
  else
    { s with children := s.children ++ [(p, [c])] }

/-- Modelled from the spec (section 4.1 `AddChild`, missing `Node` class):
fails as a no-op returning false when the prospective child is the parent
itself or an ancestor of the parent (the cycle check walks the ancestor
chain); otherwise the child is detached from any previous parent and
appended to the new parent's child list. -/
def addChild (s : Scene) (p c : Nat) : Bool × Scene :=
  if c = p ∨ c ∈ ancestors s p then (false, s)
  else (true, attachChild (detachEverywhere s c) p c)

/-- Modelled from the spec (section 4.1 `RemoveChild(node)`): detaches a
direct child; a no-op if not present; the detached node stays registered. -/
def removeChild (s : Scene) (p c : Nat) : Scene :=
  { s with children := s.children.map (fun e => if e.1 = p then (e.1, e.2.filter (fun x => x ≠ c)) else e) }

/-- Modelled from the spec (section 4.1 `RemoveChild(index)`): resolves the
index in the immediate-children sequence, then removes that child. -/
def removeChildByIndex (s : Scene) (p i : Nat) : Scene :=
  match (childrenOf s p)[i]? with
  | some c => removeChild s p c
  | none => s

/-- Modelled from the spec (section 4.1 `RemoveChild(id)`): a node handle is
its id in this embedding, so resolving by id is the identity. -/
def removeChildById (s : Scene) (p cid : Nat) : Scene :=
  removeChild s p cid

/-- Modelled from the spec (section 4.1 `RemoveChild(name)`): resolves the
name among the immediate children via the scene's node-name map, then
removes that child. -/
def removeChildByName (s : Scene) (p : Nat) (nm : String) : Scene :=
  match (childrenOf s p).find? (fun c => alist s.nodeNames c = some nm) with
  | some c => removeChild s p c
  | none => s

/-- Sub-mesh list of a visual. -/
def geomsOf (s : Scene) (v : Nat) : List SubMeshState :=
  (alist s.geoms v).getD []

/-- Whether visual `v` exclusively owns registry entry `m` through one of its
sub-meshes (a cloned or default material). -/
def ownedByVisual (s : Scene) (v : Nat) (m : String) : Bool :=
  (geomsOf s v).any (fun sm => sm.owns && sm.material == some m)

/-- Modelled from the spec (sections 4.2 `DestroyVisual` and 9, missing
`BaseScene` destruction code): removing a visual from every registry.  The
visual leaves the visual registry and the name map, every parent/child edge
touching it is severed (its own children entry is dropped and it is filtered
out of every child list, so destruction "nulls back-references as it goes"),
its sub-mesh list is dropped, and every material it exclusively owned is
automatically unregistered (section 4.3). -/
def unregisterVisual (s : Scene) (v : Nat) : Scene :=
  { s with
    visuals := s.visuals.filter (fun x => x ≠ v),
    children := (s.children.filter (fun e => e.1 ≠ v)).map (fun e => (e.1, e.2.filter (fun x => x ≠ v))),
    nodeNames := s.nodeNames.filter (fun e => e.1 ≠ v),
    geoms := s.geoms.filter (fun e => e.1 ≠ v),
    materials := s.materials.filter (fun m => !(ownedByVisual s v m)) }

/-- Sum of the lengths of all child lists (part of the recursion fuel). -/
def sumLens : List (Nat × List Nat) → Nat
  | [] => 0
  | e :: es => e.2.length + sumLens es

/-- Modelled from the spec (sections 3 and 9, missing recursive-destroy code):
cycle-safe recursive destruction as an iterative removal over a work list
"that cannot revisit a freed node": a node still registered is unregistered
and its children are queued; a node already freed is skipped.  The fuel
argument only bounds the number of steps; `sceneFuel` below always
suffices. -/
def destroyStep : Nat → Scene → List Nat → Scene
  | 0, s, _ => s
  | _ + 1, s, [] => s
  | fuel + 1, s, c :: cs =>
    if c ∈ s.visuals then destroyStep fuel (unregisterVisual s c) (childrenOf s c ++ cs)
    else destroyStep fuel s cs

/-- Enough fuel for `destroyStep` started on a single node: every step either
frees a registered visual (queueing at most its child list, whose length is
paid for by `sumLens`) or drops a work item. -/
def sceneFuel (s : Scene) : Nat :=
  s.visuals.length + sumLens s.children + 1

/-- Modelled from the spec (section 4.2 `DestroyVisual(entity, recursive)`):
non-recursive destruction unregisters just the visual (children are detached
but survive); recursive destruction performs the cycle-safe traversal. -/
def destroyVisual (s : Scene) (v : Nat) (recursive : Bool) : Scene :=
  if recursive then destroyStep (sceneFuel s) s [v]
  else if v ∈ s.visuals then unregisterVisual s v else s

/-- Modelled from the spec (section 4.3 `MaterialRegistered`). -/
def materialRegistered (s : Scene) (m : String) : Bool :=
  decide (m ∈ s.materials)

/-- Modelled from the spec (section 4.3 `DestroyMaterial`): explicit removal,
a no-op if the material is not registered. -/
def destroyMaterial (s : Scene) (m : String) : Scene :=
  { s with materials := s.materials.filter (fun x => x ≠ m) }

/-- Modelled from the spec (section 4.3 `DestroyMaterials`): clears the whole
material registry. -/
def destroyMaterials (s : Scene) : Scene :=
  { s with materials := [] }

/-- Longest name length in a list of names. -/
def maxNameLen (l : List String) : Nat :=
  l.foldr (fun a b => max a.length b) 0

/-- Modelled from the spec (sections 4.3 and 9: derived names "must probe
until finding an unused value"): a derived material name guaranteed to be
unused, obtained as a name strictly longer than every registered one. -/
def freshMatName (s : Scene) : String :=
  String.mk (List.replicate (maxNameLen s.materials + 1) 'm')

/-- Modelled from the spec (section 4.3 `SetMaterial(materialOrName, clone)`
on a SubMesh, missing `BaseSubMesh` class): with `clone = false` the sub-mesh
takes a shared, non-owning reference to the named registry entry; with
`clone = true` a private copy is registered under a fresh derived name and
exclusively owned by the sub-mesh.  In either case, if the sub-mesh
exclusively owned its previous material, that registry entry is
automatically unregistered (its last owning reference disappears). -/
def setSubMeshMaterial (s : Scene) (v i : Nat) (matName : String) (clone : Bool) : Scene :=
  match (geomsOf s v)[i]? with
  | none => s
  | some sm =>
    let pr :=
      if clone then
        (SubMeshState.mk (some (freshMatName s)) true,
          { s with materials := freshMatName s :: s.materials })
      else (SubMeshState.mk (some matName) false, s)
    let s2 :=
      if sm.owns then
        match sm.material with
        | some old => { pr.2 with materials := pr.2.materials.filter (fun x => x ≠ old) }
        | none => pr.2
      else pr.2
    { s2 with geoms := s2.geoms.map (fun e => if e.1 = v then (e.1, e.2.set i pr.1) else e) }

/-- Helper for `setMeshMaterial`: apply the sub-mesh binding to `n`
consecutive sub-mesh indices starting at `i`. -/
def setMeshMaterialAux (v : Nat) (matName : String) (clone : Bool) : Nat → Nat → Scene → Scene
  | _, 0, s => s
  | i, n + 1, s => setMeshMaterialAux v matName clone (i + 1) n (setSubMeshMaterial s v i matName clone)

/-- Modelled from the spec (section 4.3 `SetMaterial` on a Mesh, missing
`BaseMesh` class): binds the material to every sub-mesh of the visual's
mesh in turn, with the same shared/clone rules as the sub-mesh binding. -/
def setMeshMaterial (s : Scene) (v : Nat) (matName : String) (clone : Bool) : Scene :=
  setMeshMaterialAux v matName clone 0 (geomsOf s v).length s

/-- Append a sub-mesh to a visual's sub-mesh list, creating the entry when
absent. -/
def addSubMeshEntry (gs : List (Nat × List SubMeshState)) (v : Nat) (sm : SubMeshState) :
    List (Nat × List SubMeshState) :=
  if gs.any (fun e => e.1 = v) then gs.map (fun e => if e.1 = v then (e.1, e.2 ++ [sm]) else e)
  else gs ++ [(v, [sm])]

/-- Modelled from the spec (section 4.3 default materials, missing `CreateBox`
factory): creating a box geometry on a visual adds one sub-mesh and
auto-creates and registers a default material for it, exclusively owned by
that sub-mesh; returns the default material's derived name. -/
def addBoxGeometry (s : Scene) (v : Nat) : String × Scene :=
  let dn := freshMatName s
  (dn, { s with materials := dn :: s.materials,
                geoms := addSubMeshEntry s.geoms v (SubMeshState.mk (some dn) true) })

/-- Modelled from the spec (section 4.4 `SetTime(duration)`): a purely stored
value. -/
def setTime (s : Scene) (d : Int) : Scene :=
  { s with time := d }

/-- Modelled from the spec (section 4.4 `Time`): reads back the stored
duration verbatim, with no automatic advancement. -/
def sceneTime (s : Scene) : Int :=
  s.time

/-- Modelled from the spec (section 4.4 `SetSkyEnabled`): a boolean toggle
touching no other scene state. -/
def setSkyEnabled (s : Scene) (b : Bool) : Scene :=
  { s with skyEnabled := b }

/-- Modelled from the spec (section 4.4 `SetBackgroundMaterial`): stores the
optional background material, independent of the sky flag. -/
def setBackgroundMaterial (s : Scene) (m : Option String) : Scene :=
  { s with backgroundMaterial := m }

/-- Modelled from the spec (section 3, missing light classes): the light type
categories. -/
inductive LightType
  | empty
  | point
  | spot
  | directional
deriving DecidableEq, Repr

/-- Modelled from the spec (section 4.4): fixed texture-size defaults per
light-type category; 2048 for the positional/directional categories and 0
for the unknown category. -/
def defaultShadowTexSize : LightType → Nat
  | .empty => 0
  | _ => 2048

/-- Modelled from the spec (section 4.4): the bounded back-end-defined
maximum shadow texture size. -/
def maxTexSize : Nat := 16384

/-- Power-of-two test. -/
def isPow2 (n : Nat) : Bool :=
  (n != 0) && ((n &&& (n - 1)) == 0)

/-- Modelled from the spec (section 4.4): a shadow texture size is valid when
it is a power of two no larger than `maxTexSize`. -/
def validShadowTexSize (n : Nat) : Bool :=
  isPow2 n && decide (n ≤ maxTexSize)

/-- Modelled from the spec (section 4.4 `ShadowTextureSize(lightType)`): the
stored value for the directional category, the fixed default otherwise. -/
def shadowTextureSize (s : Scene) (lt : LightType) : Nat :=
  match lt with
  | .directional => s.shadowDirSize
  | lt => defaultShadowTexSize lt

/-- Modelled from the spec (section 4.4 `SetShadowTextureSize`): only
meaningful for the directional category; any other category, or an invalid
size, fails with the stored value left intact. -/
def setShadowTextureSize (s : Scene) (lt : LightType) (n : Nat) : Bool × Scene :=
  match lt with
  | .directional =>
    if validShadowTexSize n then (true, { s with shadowDirSize := n })
    else (false, s)
  | _ => (false, s)

/-- Reachability from a node through child edges, passing only through
registered visuals (the "reachable subtree", possibly cyclic). -/
inductive ReachReg (s : Scene) : Nat → Nat → Prop
  | refl (v : Nat) (hv : v ∈ s.visuals) : ReachReg s v v
  | step (v c w : Nat) (hv : v ∈ s.visuals) (hc : c ∈ childrenOf s v)
      (h : ReachReg s c w) : ReachReg s v w

/-- Concrete scene mirroring the `NodeCycle` test: root 0, a "parent" visual
1 and a "child_A" visual 2, with the deliberate cycle 1 → 2 → 1. -/
def cycScene : Scene :=
  { initScene with visuals := [1, 2], children := [(0, [1]), (1, [2]), (2, [1])] }

/-- Concrete scene mirroring the `DestroyNodes` test: root 0 holding a parent
visual 1 with children 2 and 3. -/
def treeScene : Scene :=
  { initScene with visuals := [1, 2, 3], children := [(0, [1]), (1, [2, 3])] }

/-- Concrete scene mirroring the `RemoveNodes` test: root 0 holding visual 1,
with a detached visual 2 ready to be attached. -/
def twoScene : Scene :=
  { initScene with
    visuals := [1, 2], children := [(0, [1])],
    nodeNames := [(1, "parent"), (2, "child")] }

/-- Concrete scene mirroring the `Materials` test sharing scenario: two
visuals 1 and 2, each with one unbound sub-mesh, and a registered material
"mesh_material". -/
def matScene : Scene :=
  { initScene with
    visuals := [1, 2], materials := ["mesh_material"],
    geoms := [(1, [SubMeshState.mk none false]), (2, [SubMeshState.mk none false])] }

/-- Concrete scene mirroring the `Materials` test cloning scenario: one
visual with one unbound sub-mesh and a registered material. -/
def cloneScene : Scene :=
  { initScene with
    visuals := [1], materials := ["mesh_material2"],
    geoms := [(1, [SubMeshState.mk none false])] }

/-- Concrete scene for the default-material scenario: a single visual with no
geometry yet. -/
def boxScene : Scene :=
  { initScene with visuals := [1] }

theorem mem_filter_ne {l : List Nat} {a v : Nat} :
    a ∈ l.filter (fun x => x ≠ v) ↔ a ∈ l ∧ a ≠ v := by
  simp [List.mem_filter]

theorem mem_filter_ne_gen {α : Type} [DecidableEq α] {l : List α} {a v : α} :
    a ∈ l.filter (fun x => x ≠ v) ↔ a ∈ l ∧ a ≠ v := by
  simp [List.mem_filter]

theorem length_filter_ne_lt {l : List Nat} {v : Nat} (h : v ∈ l) :
    (l.filter (fun x => x ≠ v)).length < l.length := by
  induction l with
  | nil => cases h
  | cons a l ih =>
    by_cases hav : a = v
    · subst hav
      simp only [List.filter_cons]
      have : (decide (a ≠ a)) = false := by simp
      simp only [this, if_neg]
      simp only [List.length_cons]
      exact Nat.lt_succ_of_le (List.length_filter_le _ _)
    · rcases List.mem_cons.mp h with h' | h'
      · exact absurd h'.symm hav
      · simp only [List.filter_cons]
        have : (decide (a ≠ v)) = true := by simp [hav]
        simp only [this, if_pos, List.length_cons]
        exact Nat.succ_lt_succ (ih h')

theorem length_filter_ne_nodup {l : List Nat} {v : Nat} (hnd : l.Nodup) (h : v ∈ l) :
    (l.filter (fun x => x ≠ v)).length + 1 = l.length := by
  induction l with
  | nil => cases h
  | cons a l ih =>
    rcases List.nodup_cons.mp hnd with ⟨hna, hnd'⟩
    by_cases hav : a = v
    · subst hav
      have hself : l.filter (fun x => x ≠ a) = l := by
        apply List.filter_eq_self.mpr
        intro x hx
        simp only [decide_eq_true_eq]
        exact fun hxa => hna (hxa ▸ hx)
      have hc : (decide (a ≠ a)) = false := by simp
      rw [List.filter_cons, hc, if_neg (by simp), hself, List.length_cons]
    · rcases List.mem_cons.mp h with h' | h'
      · exact absurd h'.symm hav
      · have hih := ih hnd' h'
        simp only [List.filter_cons, List.length_cons]
        have hc : (decide (a ≠ v)) = true := by simp [hav]
        rw [hc]
        simp only [if_pos, List.length_cons]
        omega

theorem alist_cons {α : Type} (e : Nat × α) (l : List (Nat × α)) (k : Nat) :
    alist (e :: l) k = if e.1 = k then some e.2 else alist l k := rfl

theorem alist_filter_ne {α : Type} {l : List (Nat × α)} {k v : Nat} (hk : k ≠ v) :
    alist (l.filter (fun e => e.1 ≠ v)) k = alist l k := by
  induction l with
  | nil => rfl
  | cons e l ih =>
    rw [List.filter_cons]
    by_cases hev : e.1 = v
    · have hc : (decide (e.1 ≠ v)) = false := by simp [hev]
      rw [hc, if_neg (by simp), alist_cons, if_neg (fun (h : e.1 = k) => hk (h ▸ hev)), ih]
    · have hc : (decide (e.1 ≠ v)) = true := by simp [hev]
      rw [hc, if_pos rfl, alist_cons, alist_cons]
      by_cases hek : e.1 = k
      · rw [if_pos hek, if_pos hek]
      · rw [if_neg hek, if_neg hek, ih]

theorem alist_map_update {α : Type} {l : List (Nat × α)} {v : Nat} (f : α → α) :
    alist (l.map (fun e => if e.1 = v then (e.1, f e.2) else e)) v = (alist l v).map f := by
  induction l with
  | nil => rfl
  | cons e l ih =>
    by_cases hev : e.1 = v
    · simp [alist, hev, ih]
    · simp [alist, hev, ih]

theorem alist_map_update_ne {α : Type} {l : List (Nat × α)} {k v : Nat} (f : α → α)
    (hk : k ≠ v) :
    alist (l.map (fun e => if e.1 = v then (e.1, f e.2) else e)) k = alist l k := by
  induction l with
  | nil => rfl
  | cons e l ih =>
    by_cases hev : e.1 = v
    · simp [alist, hev, hk, Ne.symm hk, ih]
    · by_cases hek : e.1 = k
      · simp [alist, hev, hek, hk, Ne.symm hk]
      · simp [alist, hev, hek, ih]

theorem parentIn_eq_none {l : List (Nat × List Nat)} {c : Nat}
    (h : ∀ e ∈ l, c ∉ e.2) : parentIn l c = none := by
  induction l with
  | nil => rfl
  | cons e l ih =>
    have hc : c ∉ e.2 := h e (List.mem_cons_self _ _)
    simp only [parentIn, if_neg hc]
    exact ih (fun e' he' => h e' (List.mem_cons_of_mem _ he'))

theorem parentIn_append {l l' : List (Nat × List Nat)} {c : Nat} :
    parentIn (l ++ l') c = ((parentIn l c).or (parentIn l' c)) := by
  induction l with
  | nil => rfl
  | cons e l ih =>
    by_cases hc : c ∈ e.2
    · simp [parentIn, hc]
    · simp [parentIn, hc, ih]

theorem alist_map_snd {α β : Type} {l : List (Nat × α)} {k : Nat} (f : α → β) :
    alist (l.map (fun e => (e.1, f e.2))) k = (alist l k).map f := by
  induction l with
  | nil => rfl
  | cons e l ih =>
    by_cases hek : e.1 = k
    · simp [alist, hek]
    · simp [alist, hek, ih]

theorem alist_map_filter_snd {l : List (Nat × List Nat)} {k v : Nat} :
    alist (l.map (fun e => (e.1, e.2.filter (fun y => y ≠ v)))) k
      = (alist l k).map (fun ys => ys.filter (fun y => y ≠ v)) := by
  induction l with
  | nil => rfl
  | cons e l ih =>
    rw [List.map_cons, alist_cons, alist_cons]
    dsimp only
    by_cases hek : e.1 = k
    · rw [if_pos hek, if_pos hek]
      rfl
    · rw [if_neg hek, if_neg hek]
      exact ih

theorem childrenOf_unregister {s : Scene} {v x : Nat} (hx : x ≠ v) :
    childrenOf (unregisterVisual s v) x = (childrenOf s x).filter (fun y => y ≠ v) := by
  show (alist ((s.children.filter (fun e => e.1 ≠ v)).map
      (fun e => (e.1, e.2.filter (fun y => y ≠ v)))) x).getD [] = _
  rw [alist_map_filter_snd, alist_filter_ne hx]
  unfold childrenOf
  cases alist s.children x <;> rfl

theorem sumLens_map_filter_le (l : List (Nat × List Nat)) (p : Nat → Bool) :
    sumLens (l.map (fun e => (e.1, e.2.filter p))) ≤ sumLens l := by
  induction l with
  | nil => exact Nat.le_refl _
  | cons e l ih =>
    simp only [List.map_cons, sumLens]
    exact Nat.add_le_add (List.length_filter_le _ _) ih

theorem sumLens_filter_le (l : List (Nat × List Nat)) (q : Nat × List Nat → Bool) :
    sumLens (l.filter q) ≤ sumLens l := by
  induction l with
  | nil => exact Nat.le_refl _
  | cons e l ih =>
    rw [List.filter_cons]
    by_cases hq : q e = true
    · rw [if_pos hq]
      simp only [sumLens]
      exact Nat.add_le_add_left ih _
    · rw [if_neg (by simp [hq])]
      simp only [sumLens]
      exact Nat.le_trans ih (Nat.le_add_left _ _)

theorem sumLens_filter_keys (l : List (Nat × List Nat)) (v : Nat) :
    sumLens (l.filter (fun e => e.1 ≠ v)) + ((alist l v).getD []).length ≤ sumLens l := by
  induction l with
  | nil => exact Nat.le_refl _
  | cons e l ih =>
    rw [List.filter_cons]
    by_cases hev : e.1 = v
    · have hc : (decide (e.1 ≠ v)) = false := by simp [hev]
      rw [hc, if_neg (by simp), alist_cons, if_pos hev]
      simp only [Option.getD_some, sumLens]
      have := sumLens_filter_le l (fun e => e.1 ≠ v)
      omega
    · have hc : (decide (e.1 ≠ v)) = true := by simp [hev]
      rw [hc, if_pos rfl, alist_cons, if_neg hev]
      simp only [sumLens]
      omega

theorem sumLens_unregister (s : Scene) (c : Nat) :
    sumLens (unregisterVisual s c).children + (childrenOf s c).length ≤ sumLens s.children := by
  have h1 := sumLens_map_filter_le (s.children.filter (fun e => e.1 ≠ c)) (fun x => x ≠ c)
  have h2 := sumLens_filter_keys s.children c
  show sumLens ((s.children.filter (fun e => e.1 ≠ c)).map
      (fun e => (e.1, e.2.filter (fun x => x ≠ c)))) + (childrenOf s c).length ≤ _
  unfold childrenOf
  omega

theorem destroyStep_subset : ∀ (f : Nat) (s : Scene) (ws : List Nat) (a : Nat),
    a ∈ (destroyStep f s ws).visuals → a ∈ s.visuals := by
  intro f
  induction f with
  | zero => intro s ws a h; exact h
  | succ f ih =>
    intro s ws a h
    match ws with
    | [] => exact h
    | c :: cs =>
      simp only [destroyStep] at h
      by_cases hc : c ∈ s.visuals
      · rw [if_pos hc] at h
        have := ih _ _ _ h
        exact (mem_filter_ne.mp this).1
      · rw [if_neg hc] at h
        exact ih _ _ _ h

theorem destroyStep_kills : ∀ (f : Nat) (s : Scene) (ws : List Nat),
    s.visuals.length + sumLens s.children + ws.length ≤ f →
    (∀ c ∈ ws, c ∉ (destroyStep f s ws).visuals) ∧
    (∀ x ∈ s.visuals, x ∉ (destroyStep f s ws).visuals →
      ∀ y ∈ childrenOf s x, y ∉ (destroyStep f s ws).visuals) := by
  intro f
  induction f with
  | zero =>
    intro s ws hf
    have hws : ws = [] := List.length_eq_zero.mp (by omega)
    have hv : s.visuals = [] := List.length_eq_zero.mp (by omega)
    constructor
    · intro c hc; rw [hws] at hc; cases hc
    · intro x hx; rw [hv] at hx; cases hx
  | succ f ih =>
    intro s ws hf
    match ws with
    | [] =>
      constructor
      · intro c hc; cases hc
      · intro x hx hdead
        simp only [destroyStep] at hdead
        exact absurd hx hdead
    | c :: cs =>
      by_cases hc : c ∈ s.visuals
      · have hstep : destroyStep (f + 1) s (c :: cs) =
            destroyStep f (unregisterVisual s c) (childrenOf s c ++ cs) := by
          simp only [destroyStep, if_pos hc]
        have hlen1 : (unregisterVisual s c).visuals.length < s.visuals.length :=
          length_filter_ne_lt hc
        have hlen2 := sumLens_unregister s c
        have hf' : (unregisterVisual s c).visuals.length + sumLens (unregisterVisual s c).children
            + (childrenOf s c ++ cs).length ≤ f := by
          rw [List.length_append]
          simp only [List.length_cons] at hf
          omega
        obtain ⟨ihA, ihB⟩ := ih (unregisterVisual s c) (childrenOf s c ++ cs) hf'
        rw [hstep]
        constructor
        · intro c' hc'
          rcases List.mem_cons.mp hc' with rfl | hmem
          · intro hin
            have hmem' := destroyStep_subset f _ _ _ hin
            exact (mem_filter_ne.mp hmem').2 rfl
          · exact ihA c' (List.mem_append_right _ hmem)
        · intro x hx hdead y hy
          by_cases hxc : x = c
          · subst hxc
            exact ihA y (List.mem_append_left _ hy)
          · have hx' : x ∈ (unregisterVisual s c).visuals := mem_filter_ne.mpr ⟨hx, hxc⟩
            by_cases hyc : y = c
            · subst hyc
              intro hin
              have hmem' := destroyStep_subset f _ _ _ hin
              exact (mem_filter_ne.mp hmem').2 rfl
            · have hy' : y ∈ childrenOf (unregisterVisual s c) x := by
                rw [childrenOf_unregister hxc]
                exact mem_filter_ne.mpr ⟨hy, hyc⟩
              exact ihB x hx' hdead y hy'
      · have hstep : destroyStep (f + 1) s (c :: cs) = destroyStep f s cs := by
          simp only [destroyStep, if_neg hc]
        have hf' : s.visuals.length + sumLens s.children + cs.length ≤ f := by
          simp only [List.length_cons] at hf
          omega
        obtain ⟨ihA, ihB⟩ := ih s cs hf'
        rw [hstep]
        constructor
        · intro c' hc'
          rcases List.mem_cons.mp hc' with rfl | hmem
          · intro hin; exact hc (destroyStep_subset f s cs c' hin)
          · exact ihA c' hmem
        · exact ihB

theorem parentIn_cons (e : Nat × List Nat) (l : List (Nat × List Nat)) (c : Nat) :
    parentIn (e :: l) c = if c ∈ e.2 then some e.1 else parentIn l c := rfl

theorem alist_append {α : Type} {l l' : List (Nat × α)} {k : Nat} :
    alist (l ++ l') k = (alist l k).or (alist l' k) := by
  induction l with
  | nil => rfl
  | cons e l ih =>
    by_cases hek : e.1 = k
    · simp [alist, hek]
    · simp [alist, hek, ih]

theorem alist_eq_none {α : Type} {l : List (Nat × α)} {k : Nat}
    (h : ∀ e ∈ l, e.1 ≠ k) : alist l k = none := by
  induction l with
  | nil => rfl
  | cons e l ih =>
    rw [alist_cons, if_neg (h e (List.mem_cons_self _ _))]
    exact ih (fun e' he' => h e' (List.mem_cons_of_mem _ he'))

theorem alist_isSome_of_any {l : List (Nat × List Nat)} {p : Nat}
    (hex : l.any (fun e => e.1 = p) = true) : ∃ ys, alist l p = some ys := by
  induction l with
  | nil => cases hex
  | cons e l ih =>
    by_cases hep : e.1 = p
    · exact ⟨e.2, by rw [alist_cons, if_pos hep]⟩
    · have hex' : l.any (fun e => e.1 = p) = true := by
        simpa [List.any_cons, hep] using hex
      obtain ⟨ys, hys⟩ := ih hex'
      exact ⟨ys, by rw [alist_cons, if_neg hep, hys]⟩

theorem detach_no_c (s : Scene) (c : Nat) :
    ∀ e ∈ (detachEverywhere s c).children, c ∉ e.2 := by
  intro e he
  simp only [detachEverywhere] at he
  rcases List.mem_map.mp he with ⟨e₀, _, rfl⟩
  intro hc
  exact (mem_filter_ne.mp hc).2 rfl

theorem parentIn_map_addchild {l : List (Nat × List Nat)} {p c : Nat}
    (hd : ∀ e ∈ l, c ∉ e.2) (hex : l.any (fun e => e.1 = p) = true) :
    parentIn (l.map (fun e => if e.1 = p then (e.1, e.2 ++ [c]) else e)) c = some p := by
  induction l with
  | nil => cases hex
  | cons e l ih =>
    by_cases hep : e.1 = p
    · rw [List.map_cons, if_pos hep, parentIn_cons]
      rw [if_pos (by simp : c ∈ (e.1, e.2 ++ [c]).2)]
      exact congrArg some hep
    · rw [List.map_cons, if_neg hep, parentIn_cons]
      rw [if_neg (hd e (List.mem_cons_self _ _))]
      refine ih (fun e' he' => hd e' (List.mem_cons_of_mem _ he')) ?_
      simpa [List.any_cons, hep] using hex

theorem parentIn_append_entry {l : List (Nat × List Nat)} {p c : Nat}
    (hd : ∀ e ∈ l, c ∉ e.2) :
    parentIn (l ++ [(p, [c])]) c = some p := by
  rw [parentIn_append, parentIn_eq_none hd]
  simp [parentIn]

theorem attach_parentOf {d : Scene} {p c : Nat} (hd : ∀ e ∈ d.children, c ∉ e.2) :
    parentOf (attachChild d p c) c = some p := by
  unfold parentOf attachChild
  by_cases hex : d.children.any (fun e => e.1 = p) = true
  · rw [if_pos hex]
    exact parentIn_map_addchild hd hex
  · rw [if_neg hex]
    exact parentIn_append_entry hd

theorem attach_hasChild {d : Scene} {p c : Nat} :
    hasChild (attachChild d p c) p c = true := by
  unfold hasChild attachChild childrenOf
  by_cases hex : d.children.any (fun e => e.1 = p) = true
  · rw [if_pos hex]
    have h1 : alist (d.children.map (fun e => if e.1 = p then (e.1, e.2 ++ [c]) else e)) p
        = (alist d.children p).map (fun ys => ys ++ [c]) := alist_map_update (fun ys => ys ++ [c])
    show decide (c ∈ (alist (d.children.map
        (fun e => if e.1 = p then (e.1, e.2 ++ [c]) else e)) p).getD []) = true
    rw [h1]
    obtain ⟨ys, hys⟩ := alist_isSome_of_any hex
    rw [hys]
    simp
  · rw [if_neg hex]
    have hno : ∀ e ∈ d.children, e.1 ≠ p := by
      intro e he
      intro hep
      exact hex (List.any_eq_true.mpr ⟨e, he, by simp [hep]⟩)
    show decide (c ∈ (alist (d.children ++ [(p, [c])]) p).getD []) = true
    rw [alist_append, alist_eq_none hno]
    simp [alist]

theorem attach_entries {d : Scene} {p c : Nat} (hd : ∀ e ∈ d.children, c ∉ e.2) :
    ∀ e ∈ (attachChild d p c).children, c ∈ e.2 → e.1 = p := by
  unfold attachChild
  by_cases hex : d.children.any (fun e => e.1 = p) = true
  · rw [if_pos hex]
    intro e he hc
    rcases List.mem_map.mp he with ⟨e₀, he₀, rfl⟩
    by_cases hep : e₀.1 = p
    · rw [if_pos hep]
      exact hep
    · rw [if_neg hep] at hc ⊢
      exact absurd hc (hd e₀ he₀)
  · rw [if_neg hex]
    intro e he hc
    rcases List.mem_append.mp he with h | h
    · exact absurd hc (hd e h)
    · rcases List.mem_singleton.mp h with rfl
      rfl

theorem addChild_success_not {s : Scene} {p c : Nat}
    (h : (addChild s p c).1 = true) : ¬(c = p ∨ c ∈ ancestors s p) := by
  intro hcond
  unfold addChild at h
  rw [if_pos hcond] at h
  cases h

theorem addChild_success_snd {s : Scene} {p c : Nat}
    (h : (addChild s p c).1 = true) :
    (addChild s p c).2 = attachChild (detachEverywhere s c) p c := by
  unfold addChild
  rw [if_neg (addChild_success_not h)]

theorem parentIn_map_filter_snd {l : List (Nat × List Nat)} {c x : Nat} (hx : x ≠ c) :
    parentIn (l.map (fun e => (e.1, e.2.filter (fun y => y ≠ c)))) x = parentIn l x := by
  induction l with
  | nil => rfl
  | cons e l ih =>
    rw [List.map_cons, parentIn_cons, parentIn_cons]
    by_cases hxe : x ∈ e.2
    · rw [if_pos hxe, if_pos (by exact mem_filter_ne.mpr ⟨hxe, hx⟩ : x ∈ (e.1, e.2.filter (fun y => y ≠ c)).2)]
    · rw [if_neg hxe, if_neg (fun hmem => hxe (mem_filter_ne.mp hmem).1), ih]

theorem parentIn_map_addchild_ne {l : List (Nat × List Nat)} {p c x : Nat} (hx : x ≠ c) :
    parentIn (l.map (fun e => if e.1 = p then (e.1, e.2 ++ [c]) else e)) x = parentIn l x := by
  induction l with
  | nil => rfl
  | cons e l ih =>
    rw [List.map_cons]
    by_cases hep : e.1 = p
    · rw [if_pos hep, parentIn_cons, parentIn_cons]
      by_cases hxe : x ∈ e.2
      · rw [if_pos (by simp [hxe] : x ∈ (e.1, e.2 ++ [c]).2), if_pos hxe]
      · rw [if_neg (by simp [hxe, hx] : ¬ x ∈ (e.1, e.2 ++ [c]).2), if_neg hxe, ih]
    · rw [if_neg hep, parentIn_cons, parentIn_cons]
      by_cases hxe : x ∈ e.2
      · rw [if_pos hxe, if_pos hxe]
      · rw [if_neg hxe, if_neg hxe, ih]

theorem parentIn_map_removec {l : List (Nat × List Nat)} {p c x : Nat} (hx : x ≠ c) :
    parentIn (l.map (fun e => if e.1 = p then (e.1, e.2.filter (fun y => y ≠ c)) else e)) x
      = parentIn l x := by
  induction l with
  | nil => rfl
  | cons e l ih =>
    rw [List.map_cons]
    by_cases hep : e.1 = p
    · rw [if_pos hep, parentIn_cons, parentIn_cons]
      by_cases hxe : x ∈ e.2
      · rw [if_pos (mem_filter_ne.mpr ⟨hxe, hx⟩ :
          x ∈ (e.1, e.2.filter (fun y => y ≠ c)).2), if_pos hxe]
      · rw [if_neg (fun hmem => hxe (mem_filter_ne.mp hmem).1), if_neg hxe, ih]
    · rw [if_neg hep, parentIn_cons, parentIn_cons]
      by_cases hxe : x ∈ e.2
      · rw [if_pos hxe, if_pos hxe]
      · rw [if_neg hxe, if_neg hxe, ih]

theorem addChild_parentOf_ne {s : Scene} {p c x : Nat} (hx : x ≠ c)
    (h : (addChild s p c).1 = true) :
    parentOf (addChild s p c).2 x = parentOf s x := by
  rw [addChild_success_snd h]
  unfold parentOf attachChild
  by_cases hex : (detachEverywhere s c).children.any (fun e => e.1 = p) = true
  · rw [if_pos hex]
    show parentIn ((detachEverywhere s c).children.map
      (fun e => if e.1 = p then (e.1, e.2 ++ [c]) else e)) x = _
    rw [parentIn_map_addchild_ne hx]
    exact parentIn_map_filter_snd hx
  · rw [if_neg hex]
    show parentIn ((detachEverywhere s c).children ++ [(p, [c])]) x = _
    rw [parentIn_append]
    have h2 : parentIn [(p, [c])] x = none := by
      rw [parentIn_cons, if_neg (by simp [hx] : ¬ x ∈ ((p, [c]) : Nat × List Nat).2)]
      rfl
    rw [h2, Option.or_none]
    exact parentIn_map_filter_snd hx

theorem removeChild_parentOf_ne {s : Scene} {p c x : Nat} (hx : x ≠ c) :
    parentOf (removeChild s p c) x = parentOf s x := by
  unfold parentOf removeChild
  exact parentIn_map_removec hx

theorem removeChild_parentOf_none {s : Scene} {p c : Nat}
    (h : ∀ e ∈ s.children, c ∈ e.2 → e.1 = p) :
    parentOf (removeChild s p c) c = none := by
  unfold parentOf removeChild
  apply parentIn_eq_none
  intro e he
  rcases List.mem_map.mp he with ⟨e₀, he₀, rfl⟩
  by_cases hep : e₀.1 = p
  · rw [if_pos hep]
    intro hc
    exact (mem_filter_ne.mp hc).2 rfl
  · rw [if_neg hep]
    intro hc
    exact hep (h e₀ he₀ hc)

theorem removeChild_childrenOf_at {s : Scene} {p c : Nat} :
    childrenOf (removeChild s p c) p = (childrenOf s p).filter (fun x => x ≠ c) := by
  unfold childrenOf removeChild
  have h1 : alist (s.children.map
      (fun e => if e.1 = p then (e.1, e.2.filter (fun x => x ≠ c)) else e)) p
      = (alist s.children p).map (fun ys => ys.filter (fun x => x ≠ c)) := alist_map_update (fun (ys : List Nat) => ys.filter (fun x => x ≠ c))
  show (alist (s.children.map
      (fun e => if e.1 = p then (e.1, e.2.filter (fun x => x ≠ c)) else e)) p).getD [] = _
  rw [h1]
  cases alist s.children p <;> rfl

theorem removeChild_childrenOf_ne {s : Scene} {p c q : Nat} (hq : q ≠ p) :
    childrenOf (removeChild s p c) q = childrenOf s q := by
  unfold childrenOf removeChild
  have h1 : alist (s.children.map
      (fun e => if e.1 = p then (e.1, e.2.filter (fun x => x ≠ c)) else e)) q
      = alist s.children q := alist_map_update_ne (fun (ys : List Nat) => ys.filter (fun x => x ≠ c)) hq
  show (alist (s.children.map
      (fun e => if e.1 = p then (e.1, e.2.filter (fun x => x ≠ c)) else e)) q).getD [] = _
  rw [h1]

theorem ancestorsAux_zero (s : Scene) (q : Nat) : ancestorsAux s 0 q = [] := rfl

theorem ancestorsAux_succ (s : Scene) (f q : Nat) :
    ancestorsAux s (f + 1) q = match parentOf s q with
      | none => []
      | some p => p :: ancestorsAux s f p := rfl

theorem ancestorsAux_none {s : Scene} {q : Nat} (f : Nat) (h : parentOf s q = none) :
    ancestorsAux s (f + 1) q = [] := by
  rw [ancestorsAux_succ, h]

theorem ancestorsAux_some {s : Scene} {q r : Nat} (f : Nat) (h : parentOf s q = some r) :
    ancestorsAux s (f + 1) q = r :: ancestorsAux s f r := by
  rw [ancestorsAux_succ, h]

theorem ancestors_transfer {s t : Scene} {c : Nat}
    (hpt : ∀ x, x ≠ c → parentOf t x = parentOf s x) :
    ∀ f q, q ≠ c → c ∈ ancestorsAux t f q → c ∈ ancestorsAux s f q := by
  intro f
  induction f with
  | zero => intro q _ h; cases h
  | succ f ih =>
    intro q hq h
    cases hps : parentOf s q with
    | none =>
      rw [ancestorsAux_none f ((hpt q hq).trans hps)] at h
      cases h
    | some r =>
      rw [ancestorsAux_some f ((hpt q hq).trans hps)] at h
      rw [ancestorsAux_some f hps]
      rcases List.mem_cons.mp h with rfl | htail
      · exact List.mem_cons_self _ _
      · by_cases hrc : r = c
        · rw [hrc]
          exact List.mem_cons_self _ _
        · exact List.mem_cons_of_mem _ (ih r hrc htail)

theorem reach_dead {s : Scene} {f : Nat} {ws : List Nat}
    (hf : s.visuals.length + sumLens s.children + ws.length ≤ f) :
    ∀ x w, ReachReg s x w → x ∉ (destroyStep f s ws).visuals →
      w ∉ (destroyStep f s ws).visuals := by
  intro x w hr
  induction hr with
  | refl v hv => exact fun h => h
  | step v c w hv hch hr ih =>
    intro hxdead
    exact ih ((destroyStep_kills f s ws hf).2 v hv hxdead c hch)

theorem length_le_maxNameLen {l : List String} {a : String} (h : a ∈ l) :
    a.length ≤ maxNameLen l := by
  induction l with
  | nil => cases h
  | cons b l ih =>
    rcases List.mem_cons.mp h with rfl | h'
    · exact Nat.le_max_left _ _
    · exact Nat.le_trans (ih h') (Nat.le_max_right _ _)

theorem freshMatName_length (s : Scene) :
    (freshMatName s).length = maxNameLen s.materials + 1 := by
  show (List.replicate (maxNameLen s.materials + 1) 'm').length = _
  exact List.length_replicate _ _

theorem freshMatName_not_mem (s : Scene) : freshMatName s ∉ s.materials := by
  intro h
  have h1 := length_le_maxNameLen h
  rw [freshMatName_length] at h1
  omega

theorem setSubMeshMaterial_shared {s : Scene} {v i : Nat} {m : String} {mat : Option String}
    (hsm : (geomsOf s v)[i]? = some (SubMeshState.mk mat false)) :
    setSubMeshMaterial s v i m false
      = { s with geoms := s.geoms.map (fun e => if e.1 = v then (e.1, e.2.set i (SubMeshState.mk (some m) false)) else e) } := by
  unfold setSubMeshMaterial
  rw [hsm]
  rfl

theorem setSubMeshMaterial_clone {s : Scene} {v i : Nat} {m : String} {mat : Option String}
    (hsm : (geomsOf s v)[i]? = some (SubMeshState.mk mat false)) :
    setSubMeshMaterial s v i m true
      = { s with materials := freshMatName s :: s.materials,
                 geoms := s.geoms.map (fun e => if e.1 = v then (e.1, e.2.set i (SubMeshState.mk (some (freshMatName s)) true)) else e) } := by
  unfold setSubMeshMaterial
  rw [hsm]
  rfl

theorem setSubMeshMaterial_replace_owned {s : Scene} {v i : Nat} {m old : String}
    (hsm : (geomsOf s v)[i]? = some (SubMeshState.mk (some old) true)) :
    setSubMeshMaterial s v i m false
      = { s with materials := s.materials.filter (fun x => x ≠ old),
                 geoms := s.geoms.map (fun e => if e.1 = v then (e.1, e.2.set i (SubMeshState.mk (some m) false)) else e) } := by
  unfold setSubMeshMaterial
  rw [hsm]
  rfl

theorem geomsOf_setgeoms {s : Scene} {v k i : Nat} {a : SubMeshState}
    {w : List String} {d : Int} :
    geomsOf { s with materials := w, time := d, geoms := s.geoms.map (fun e => if e.1 = v then (e.1, e.2.set i a) else e) } k
      = if k = v then (geomsOf s k).set i a else geomsOf s k := by
  unfold geomsOf
  by_cases hkv : k = v
  · subst hkv
    have h1 : alist (s.geoms.map (fun e => if e.1 = k then (e.1, e.2.set i a) else e)) k
        = (alist s.geoms k).map (fun ys => ys.set i a) :=
      alist_map_update (fun (ys : List SubMeshState) => ys.set i a)
    rw [if_pos rfl]
    show (alist (s.geoms.map (fun e => if e.1 = k then (e.1, e.2.set i a) else e)) k).getD []
      = ((alist s.geoms k).getD []).set i a
    rw [h1]
    cases alist s.geoms k <;> rfl
  · rw [if_neg hkv]
    have h1 : alist (s.geoms.map (fun e => if e.1 = v then (e.1, e.2.set i a) else e)) k
        = alist s.geoms k :=
      alist_map_update_ne (fun (ys : List SubMeshState) => ys.set i a) hkv
    show (alist (s.geoms.map (fun e => if e.1 = v then (e.1, e.2.set i a) else e)) k).getD []
      = (alist s.geoms k).getD []
    rw [h1]

theorem mem_materials_unregister {s : Scene} {v : Nat} {m : String} :
    m ∈ (unregisterVisual s v).materials ↔ m ∈ s.materials ∧ ownedByVisual s v m = false := by
  show m ∈ s.materials.filter (fun m => !(ownedByVisual s v m)) ↔ _
  rw [List.mem_filter]
  simp

theorem unregister_geomsOf_ne {s : Scene} {v k : Nat} (hk : k ≠ v) :
    geomsOf (unregisterVisual s v) k = geomsOf s k := by
  unfold geomsOf
  show (alist (s.geoms.filter (fun e => e.1 ≠ v)) k).getD [] = _
  rw [alist_filter_ne hk]

theorem ownedByVisual_eq_false {s : Scene} {v : Nat} {m : String}
    (h : ∀ sm ∈ geomsOf s v, sm.owns = false ∨ sm.material ≠ some m) :
    ownedByVisual s v m = false := by
  unfold ownedByVisual
  rw [List.any_eq_false]
  intro sm hsm
  rcases h sm hsm with h1 | h1
  · simp [h1]
  · simp [h1]

theorem ownedByVisual_eq_true {s : Scene} {v : Nat} {m : String} {sm : SubMeshState}
    (hsm : sm ∈ geomsOf s v) (ho : sm.owns = true) (hm : sm.material = some m) :
    ownedByVisual s v m = true := by
  unfold ownedByVisual
  rw [List.any_eq_true]
  exact ⟨sm, hsm, by simp [ho, hm]⟩

theorem destroyStep_time : ∀ (f : Nat) (s : Scene) (ws : List Nat),
    (destroyStep f s ws).time = s.time := by
  intro f
  induction f with
  | zero => intro s ws; rfl
  | succ f ih =>
    intro s ws
    match ws with
    | [] => rfl
    | c :: cs =>
      simp only [destroyStep]
      by_cases hc : c ∈ s.visuals
      · rw [if_pos hc, ih]
        rfl
      · rw [if_neg hc, ih]

theorem unregisterVisual_time (s : Scene) (v : Nat) :
    (unregisterVisual s v).time = s.time := rfl

theorem setShadow_directional (s : Scene) (n : Nat) :
    setShadowTextureSize s .directional n
      = if validShadowTexSize n then (true, { s with shadowDirSize := n }) else (false, s) := rfl

/-- C1: adding a Visual as a child of itself, or adding any ancestor of a
Visual as its child, fails: AddChild is a no-op returning false, afterwards
`HasChild p p` is still false, and no existing parent/child link changes. -/
theorem C1_addChild_cycle_rejected (s : Scene) (p a : Nat)
    (ha : a = p ∨ a ∈ ancestors s p) :
    addChild s p a = (false, s) ∧
    (hasChild s p p = false → hasChild (addChild s p a).2 p p = false) := by
  have h1 : addChild s p a = (false, s) := by
    unfold addChild
    rw [if_pos ha]
  exact ⟨h1, fun h => by rw [h1]; exact h⟩

theorem C1_witness :
    ((1 : Nat) = 1 ∨ (1 : Nat) ∈ ancestors twoScene 1) ∧
    addChild twoScene 1 1 = (false, twoScene) ∧
    hasChild (addChild twoScene 1 1).2 1 1 = false := by
  have h := C1_addChild_cycle_rejected twoScene 1 1 (Or.inl rfl)
  exact ⟨Or.inl rfl, h.1, h.2 (by decide)⟩

/-- C7: the shadow texture size for the directional light type defaults to
2048; the setter succeeds exactly for the directional type with a valid
size, after which the getter returns the new size; a non-directional light
type, or an out-of-range size such as 1000 or anything above `maxTexSize`,
makes the setter return false with the stored value unchanged. -/
theorem C7_shadowTextureSize_contract :
    shadowTextureSize initScene .directional = 2048 ∧
    (∀ (s : Scene) (n : Nat), validShadowTexSize n = true →
      setShadowTextureSize s .directional n = (true, { s with shadowDirSize := n }) ∧
      shadowTextureSize (setShadowTextureSize s .directional n).2 .directional = n) ∧
    (∀ (s : Scene) (lt : LightType) (n : Nat), lt ≠ LightType.directional →
      setShadowTextureSize s lt n = (false, s)) ∧
    (∀ (s : Scene) (n : Nat), validShadowTexSize n = false →
      setShadowTextureSize s .directional n = (false, s)) ∧
    validShadowTexSize 1000 = false ∧
    (∀ n : Nat, maxTexSize < n → validShadowTexSize n = false) := by
  refine ⟨rfl, ?_, ?_, ?_, by decide, ?_⟩
  · intro s n hv
    constructor
    · rw [setShadow_directional, if_pos hv]
    · rw [setShadow_directional, if_pos hv]
      rfl
  · intro s lt n hlt
    cases lt
    · rfl
    · rfl
    · rfl
    · exact absurd rfl hlt
  · intro s n hv
    rw [setShadow_directional, if_neg (by simp [hv])]
  · intro n hn
    unfold validShadowTexSize
    have h1 : decide (n ≤ maxTexSize) = false := by
      simp only [decide_eq_false_iff_not]
      omega
    rw [h1]
    exact Bool.and_false _

theorem C7_witness :
    validShadowTexSize 8192 = true ∧
    setShadowTextureSize initScene .directional 8192
      = (true, { initScene with shadowDirSize := 8192 }) ∧
    shadowTextureSize (setShadowTextureSize initScene .directional 8192).2 .directional = 8192 ∧
    setShadowTextureSize initScene .point 4096 = (false, initScene) ∧
    setShadowTextureSize { initScene with shadowDirSize := 8192 } .directional 1000
      = (false, { initScene with shadowDirSize := 8192 }) ∧
    validShadowTexSize 32768 = false := by
  refine ⟨by decide, ?_, ?_, ?_, ?_, ?_⟩
  · exact (C7_shadowTextureSize_contract.2.1 initScene 8192 (by decide)).1
  · exact (C7_shadowTextureSize_contract.2.1 initScene 8192 (by decide)).2
  · exact C7_shadowTextureSize_contract.2.2.1 initScene .point 4096 (by decide)
  · exact C7_shadowTextureSize_contract.2.2.2.1 { initScene with shadowDirSize := 8192 } 1000 (by decide)
  · exact C7_shadowTextureSize_contract.2.2.2.2.2 32768 (by decide)

/-- C8: the simulation clock is a pure stored value: zero on a fresh scene,
`SetTime d` followed by `Time` returns exactly `d` for every duration
(including mixed hour/second/millisecond tick counts), and no other
operation advances it. -/
theorem C8_time_roundtrip :
    sceneTime initScene = 0 ∧
    (∀ (s : Scene) (d : Int), sceneTime (setTime s d) = d) ∧
    (∀ (s : Scene) (d d2 : Int), sceneTime (setTime (setTime s d) d2) = d2) ∧
    (∀ (s : Scene) (p c : Nat), sceneTime (addChild s p c).2 = sceneTime s) ∧
    (∀ (s : Scene) (p c : Nat), sceneTime (removeChild s p c) = sceneTime s) ∧
    (∀ (s : Scene) (v : Nat) (r : Bool), sceneTime (destroyVisual s v r) = sceneTime s) := by
  refine ⟨rfl, fun _ _ => rfl, fun _ _ _ => rfl, ?_, fun _ _ _ => rfl, ?_⟩
  · intro s p c
    unfold addChild
    by_cases h : c = p ∨ c ∈ ancestors s p
    · rw [if_pos h]
    · rw [if_neg h]
      unfold attachChild
      by_cases h2 : (detachEverywhere s c).children.any (fun e => e.1 = p) = true
      · rw [if_pos h2]
        rfl
      · rw [if_neg h2]
        rfl
  · intro s v r
    cases r
    · show sceneTime (if v ∈ s.visuals then unregisterVisual s v else s) = sceneTime s
      by_cases hv : v ∈ s.visuals
      · rw [if_pos hv]
        rfl
      · rw [if_neg hv]
    · exact destroyStep_time _ _ _

/-- C9: `SkyEnabled` and `BackgroundMaterial` are independent:
`SetBackgroundMaterial` never changes the sky flag, `SetSkyEnabled` never
changes the background material; enabling sky while a background material is
set keeps both, and clearing the background material afterwards leaves the
sky enabled. -/
theorem C9_sky_background_independent :
    (∀ (s : Scene) (m : Option String),
      (setBackgroundMaterial s m).skyEnabled = s.skyEnabled) ∧
    (∀ (s : Scene) (b : Bool),
      (setSkyEnabled s b).backgroundMaterial = s.backgroundMaterial) ∧
    (∀ (s : Scene) (m : String),
      (setBackgroundMaterial (setSkyEnabled s true) (some m)).skyEnabled = true ∧
      (setBackgroundMaterial (setSkyEnabled s true) (some m)).backgroundMaterial = some m) ∧
    (∀ (s : Scene) (m : String),
      (setBackgroundMaterial (setBackgroundMaterial (setSkyEnabled s true) (some m)) none).skyEnabled
        = true) :=
  ⟨fun _ _ => rfl, fun _ _ => rfl, fun _ _ => ⟨rfl, rfl⟩, fun _ _ => rfl⟩

/-- C2: recursive destroy is a terminating traversal (a total function whose
step budget `sceneFuel` always suffices) even when the subtree contains a
cycle; it destroys every visual reachable from the starting node, so when the
subtree was the scene's entire visual content the registry ends empty and
`VisualCount` is 0 afterwards. -/
theorem C2_recursive_destroy_cycle_safe (s : Scene) (v : Nat) :
    (∀ w, ReachReg s v w → w ∉ (destroyVisual s v true).visuals) ∧
    ((∀ w ∈ s.visuals, ReachReg s v w) →
      (destroyVisual s v true).visuals = [] ∧ visualCount (destroyVisual s v true) = 0) := by
  have hfuel : s.visuals.length + sumLens s.children + ([v] : List Nat).length ≤ sceneFuel s := by
    unfold sceneFuel
    simp
  have hkill := destroyStep_kills (sceneFuel s) s [v] hfuel
  have hd : destroyVisual s v true = destroyStep (sceneFuel s) s [v] := rfl
  have hvdead : v ∉ (destroyStep (sceneFuel s) s [v]).visuals :=
    hkill.1 v (List.mem_singleton_self v)
  constructor
  · intro w hr
    rw [hd]
    exact reach_dead hfuel v w hr hvdead
  · intro hall
    have hempty : (destroyVisual s v true).visuals = [] := by
      rw [hd]
      apply List.eq_nil_iff_forall_not_mem.mpr
      intro a ha
      have has : a ∈ s.visuals := destroyStep_subset _ _ _ _ ha
      exact reach_dead hfuel v a (hall a has) hvdead ha
    refine ⟨hempty, ?_⟩
    unfold visualCount
    rw [hempty]
    rfl

theorem C2_witness :
    (∀ w ∈ cycScene.visuals, ReachReg cycScene 1 w) ∧
    (destroyVisual cycScene 1 true).visuals = [] ∧
    visualCount (destroyVisual cycScene 1 true) = 0 := by
  have hall : ∀ w ∈ cycScene.visuals, ReachReg cycScene 1 w := by
    intro w hw
    have hw' : w = 1 ∨ w = 2 := by
      have : w ∈ [1, 2] := hw
      simpa using this
    rcases hw' with rfl | rfl
    · exact ReachReg.refl 1 (by decide)
    · exact ReachReg.step 1 2 2 (by decide) (by decide) (ReachReg.refl 2 (by decide))
  have h := (C2_recursive_destroy_cycle_safe cycScene 1).2 hall
  exact ⟨hall, h.1, h.2⟩

/-- C3: non-recursive `DestroyVisual` on a parent removes the parent from the
scene's registries and detaches all of its children, but does not destroy
them: each former child stays registered and becomes parentless, and
`VisualCount` decreases by exactly one. -/
theorem C3_destroy_nonrecursive_detaches (s : Scene) (v : Nat)
    (hv : v ∈ s.visuals) (hnd : s.visuals.Nodup)
    (hch : ∀ c ∈ childrenOf s v, c ∈ s.visuals ∧ c ≠ v)
    (hup : ∀ c ∈ childrenOf s v, ∀ e ∈ s.children, c ∈ e.2 → e.1 = v) :
    hasVisual (destroyVisual s v false) v = false ∧
    (∀ c ∈ childrenOf s v, hasVisual (destroyVisual s v false) c = true) ∧
    (∀ c ∈ childrenOf s v, parentOf (destroyVisual s v false) c = none) ∧
    visualCount (destroyVisual s v false) + 1 = visualCount s := by
  have hd : destroyVisual s v false = unregisterVisual s v := by
    show (if v ∈ s.visuals then unregisterVisual s v else s) = _
    rw [if_pos hv]
  rw [hd]
  refine ⟨?_, ?_, ?_, ?_⟩
  · unfold hasVisual
    simp only [decide_eq_false_iff_not]
    intro hmem
    have : v ∈ s.visuals.filter (fun x => x ≠ v) := hmem
    exact (mem_filter_ne.mp this).2 rfl
  · intro c hc
    unfold hasVisual
    simp only [decide_eq_true_eq]
    show c ∈ s.visuals.filter (fun x => x ≠ v)
    exact mem_filter_ne.mpr ⟨(hch c hc).1, (hch c hc).2⟩
  · intro c hc
    unfold parentOf
    apply parentIn_eq_none
    intro e he
    have he' : e ∈ (s.children.filter (fun e => e.1 ≠ v)).map
        (fun e => (e.1, e.2.filter (fun x => x ≠ v))) := he
    rcases List.mem_map.mp he' with ⟨e₀, he₀, rfl⟩
    have hmem₀ : e₀ ∈ s.children := (List.mem_filter.mp he₀).1
    have hkey : e₀.1 ≠ v := by
      have := (List.mem_filter.mp he₀).2
      simpa using this
    intro hcmem
    have hc₀ : c ∈ e₀.2 := (mem_filter_ne.mp hcmem).1
    exact hkey (hup c hc e₀ hmem₀ hc₀)
  · unfold visualCount
    show (s.visuals.filter (fun x => x ≠ v)).length + 1 = s.visuals.length
    exact length_filter_ne_nodup hnd hv

theorem C3_witness :
    hasVisual (destroyVisual treeScene 1 false) 1 = false ∧
    hasVisual (destroyVisual treeScene 1 false) 2 = true ∧
    hasVisual (destroyVisual treeScene 1 false) 3 = true ∧
    parentOf (destroyVisual treeScene 1 false) 2 = none ∧
    parentOf (destroyVisual treeScene 1 false) 3 = none ∧
    visualCount (destroyVisual treeScene 1 false) + 1 = visualCount treeScene := by
  have h := C3_destroy_nonrecursive_detaches treeScene 1 (by decide) (by decide)
    (by decide) (by decide)
  refine ⟨h.1, ?_, ?_, ?_, ?_, h.2.2.2⟩
  · exact h.2.1 2 (by decide)
  · exact h.2.1 3 (by decide)
  · exact h.2.2.1 2 (by decide)
  · exact h.2.2.1 3 (by decide)

theorem attachChild_visuals (d : Scene) (p c : Nat) :
    (attachChild d p c).visuals = d.visuals := by
  unfold attachChild
  split <;> rfl

theorem addChild_eq (s : Scene) (p c : Nat) :
    addChild s p c = if c = p ∨ c ∈ ancestors s p then (false, s)
      else (true, attachChild (detachEverywhere s c) p c) := rfl

/-- C4: after a successful `AddChild`, the child's parent is the new parent
and `HasChild` holds; after `RemoveChild` (equally through the
index/id/name variants once they resolve to the same node) the link is gone
in both directions while the node stays registered with `VisualCount`
unchanged; and the child can then be re-attached successfully. -/
theorem C4_add_remove_roundtrip (s : Scene) (p c : Nat)
    (hsucc : (addChild s p c).1 = true)
    (hnoanc : ∀ f, c ∉ ancestorsAux s f p) :
    parentOf (addChild s p c).2 c = some p ∧
    hasChild (addChild s p c).2 p c = true ∧
    hasChild (removeChild (addChild s p c).2 p c) p c = false ∧
    parentOf (removeChild (addChild s p c).2 p c) c = none ∧
    (removeChild (addChild s p c).2 p c).visuals = s.visuals ∧
    hasVisual (removeChild (addChild s p c).2 p c) c = hasVisual s c ∧
    visualCount (removeChild (addChild s p c).2 p c) = visualCount s ∧
    (∀ i, (childrenOf (addChild s p c).2 p)[i]? = some c →
      removeChildByIndex (addChild s p c).2 p i = removeChild (addChild s p c).2 p c) ∧
    removeChildById (addChild s p c).2 p c = removeChild (addChild s p c).2 p c ∧
    (∀ nm, (childrenOf (addChild s p c).2 p).find?
        (fun x => alist (addChild s p c).2.nodeNames x = some nm) = some c →
      removeChildByName (addChild s p c).2 p nm = removeChild (addChild s p c).2 p c) ∧
    (addChild (removeChild (addChild s p c).2 p c) p c).1 = true ∧
    hasChild (addChild (removeChild (addChild s p c).2 p c) p c).2 p c = true := by
  have hs1 : (addChild s p c).2 = attachChild (detachEverywhere s c) p c :=
    addChild_success_snd hsucc
  have hcp : ¬(c = p ∨ c ∈ ancestors s p) := addChild_success_not hsucc
  have hcp1 : c ≠ p := fun h => hcp (Or.inl h)
  have h1 : parentOf (addChild s p c).2 c = some p := by
    rw [hs1]
    exact attach_parentOf (detach_no_c s c)
  have h2 : hasChild (addChild s p c).2 p c = true := by
    rw [hs1]
    exact attach_hasChild
  have h3 : hasChild (removeChild (addChild s p c).2 p c) p c = false := by
    unfold hasChild
    simp only [decide_eq_false_iff_not]
    rw [removeChild_childrenOf_at]
    intro hmem
    exact (mem_filter_ne.mp hmem).2 rfl
  have h4 : parentOf (removeChild (addChild s p c).2 p c) c = none := by
    rw [hs1]
    exact removeChild_parentOf_none (attach_entries (detach_no_c s c))
  have h5 : (removeChild (addChild s p c).2 p c).visuals = s.visuals := by
    show (addChild s p c).2.visuals = s.visuals
    rw [hs1, attachChild_visuals]
    rfl
  have h6 : hasVisual (removeChild (addChild s p c).2 p c) c = hasVisual s c := by
    unfold hasVisual
    rw [h5]
  have h7 : visualCount (removeChild (addChild s p c).2 p c) = visualCount s := by
    unfold visualCount
    rw [h5]
  have h8 : ∀ i, (childrenOf (addChild s p c).2 p)[i]? = some c →
      removeChildByIndex (addChild s p c).2 p i = removeChild (addChild s p c).2 p c := by
    intro i h
    unfold removeChildByIndex
    rw [h]
  have h10 : ∀ nm, (childrenOf (addChild s p c).2 p).find?
      (fun x => alist (addChild s p c).2.nodeNames x = some nm) = some c →
      removeChildByName (addChild s p c).2 p nm = removeChild (addChild s p c).2 p c := by
    intro nm h
    unfold removeChildByName
    rw [h]
  have hpt : ∀ x, x ≠ c →
      parentOf (removeChild (addChild s p c).2 p c) x = parentOf s x := by
    intro x hx
    rw [removeChild_parentOf_ne hx, addChild_parentOf_ne hx hsucc]
  have hreatt : ¬(c = p ∨ c ∈ ancestors (removeChild (addChild s p c).2 p c) p) := by
    rintro (h | h)
    · exact hcp1 h
    · exact hnoanc _
        (ancestors_transfer hpt _ p (fun hpc => hcp1 hpc.symm) h)
  have h11 : (addChild (removeChild (addChild s p c).2 p c) p c).1 = true := by
    rw [addChild_eq (removeChild (addChild s p c).2 p c) p c, if_neg hreatt]
  have h12 : hasChild (addChild (removeChild (addChild s p c).2 p c) p c).2 p c = true := by
    rw [addChild_success_snd h11]
    exact attach_hasChild
  exact ⟨h1, h2, h3, h4, h5, h6, h7, h8, rfl, h10, h11, h12⟩

theorem C4_witness :
    (addChild twoScene 1 2).1 = true ∧
    parentOf (addChild twoScene 1 2).2 2 = some 1 ∧
    hasChild (addChild twoScene 1 2).2 1 2 = true ∧
    hasChild (removeChild (addChild twoScene 1 2).2 1 2) 1 2 = false ∧
    parentOf (removeChild (addChild twoScene 1 2).2 1 2) 2 = none ∧
    hasVisual (removeChild (addChild twoScene 1 2).2 1 2) 2 = hasVisual twoScene 2 ∧
    visualCount (removeChild (addChild twoScene 1 2).2 1 2) = visualCount twoScene ∧
    (addChild (removeChild (addChild twoScene 1 2).2 1 2) 1 2).1 = true := by
  have hnoanc : ∀ f, (2 : Nat) ∉ ancestorsAux twoScene f 1 := by
    intro f
    match f with
    | 0 => intro h; cases h
    | f + 1 =>
      rw [ancestorsAux_some f (show parentOf twoScene 1 = some 0 by decide)]
      intro hmem
      rcases List.mem_cons.mp hmem with h | h
      · exact absurd h (by decide)
      · match f with
        | 0 => cases h
        | f + 1 =>
          rw [ancestorsAux_none f (show parentOf twoScene 0 = none by decide)] at h
          cases h
  have h := C4_add_remove_roundtrip twoScene 1 2 (by decide) hnoanc
  exact ⟨by decide, h.1, h.2.1, h.2.2.1, h.2.2.2.1, h.2.2.2.2.2.1, h.2.2.2.2.2.2.1,
    h.2.2.2.2.2.2.2.2.2.2.1⟩

theorem destroyVisual_false_eq {s : Scene} {v : Nat} (hv : v ∈ s.visuals) :
    destroyVisual s v false = unregisterVisual s v := by
  show (if v ∈ s.visuals then unregisterVisual s v else s) = _
  rw [if_pos hv]

theorem setShared_materials {s : Scene} {v i : Nat} {m : String} {mat : Option String}
    (hsm : (geomsOf s v)[i]? = some (SubMeshState.mk mat false)) :
    (setSubMeshMaterial s v i m false).materials = s.materials := by
  rw [setSubMeshMaterial_shared hsm]

theorem setShared_visuals {s : Scene} {v i : Nat} {m : String} {mat : Option String}
    (hsm : (geomsOf s v)[i]? = some (SubMeshState.mk mat false)) :
    (setSubMeshMaterial s v i m false).visuals = s.visuals := by
  rw [setSubMeshMaterial_shared hsm]

theorem setShared_geomsOf {s : Scene} {v i k : Nat} {m : String} {mat : Option String}
    (hsm : (geomsOf s v)[i]? = some (SubMeshState.mk mat false)) :
    geomsOf (setSubMeshMaterial s v i m false) k
      = if k = v then (geomsOf s k).set i (SubMeshState.mk (some m) false) else geomsOf s k := by
  rw [setSubMeshMaterial_shared hsm]
  exact geomsOf_setgeoms (s := s) (v := v) (k := k) (i := i)
    (a := SubMeshState.mk (some m) false) (w := s.materials) (d := s.time)

theorem setClone_materials {s : Scene} {v i : Nat} {m : String} {mat : Option String}
    (hsm : (geomsOf s v)[i]? = some (SubMeshState.mk mat false)) :
    (setSubMeshMaterial s v i m true).materials = freshMatName s :: s.materials := by
  rw [setSubMeshMaterial_clone hsm]

theorem setClone_visuals {s : Scene} {v i : Nat} {m : String} {mat : Option String}
    (hsm : (geomsOf s v)[i]? = some (SubMeshState.mk mat false)) :
    (setSubMeshMaterial s v i m true).visuals = s.visuals := by
  rw [setSubMeshMaterial_clone hsm]

theorem setClone_geomsOf {s : Scene} {v i k : Nat} {m : String} {mat : Option String}
    (hsm : (geomsOf s v)[i]? = some (SubMeshState.mk mat false)) :
    geomsOf (setSubMeshMaterial s v i m true) k
      = if k = v then (geomsOf s k).set i (SubMeshState.mk (some (freshMatName s)) true)
        else geomsOf s k := by
  rw [setSubMeshMaterial_clone hsm]
  exact geomsOf_setgeoms (s := s) (v := v) (k := k) (i := i)
    (a := SubMeshState.mk (some (freshMatName s)) true)
    (w := freshMatName s :: s.materials) (d := s.time)

theorem setReplaceOwned_materials {s : Scene} {v i : Nat} {m old : String}
    (hsm : (geomsOf s v)[i]? = some (SubMeshState.mk (some old) true)) :
    (setSubMeshMaterial s v i m false).materials = s.materials.filter (fun x => x ≠ old) := by
  rw [setSubMeshMaterial_replace_owned hsm]

theorem setReplaceOwned_geomsOf {s : Scene} {v i k : Nat} {m old : String}
    (hsm : (geomsOf s v)[i]? = some (SubMeshState.mk (some old) true)) :
    geomsOf (setSubMeshMaterial s v i m false) k
      = if k = v then (geomsOf s k).set i (SubMeshState.mk (some m) false) else geomsOf s k := by
  rw [setSubMeshMaterial_replace_owned hsm]
  exact geomsOf_setgeoms (s := s) (v := v) (k := k) (i := i)
    (a := SubMeshState.mk (some m) false)
    (w := s.materials.filter (fun x => x ≠ old)) (d := s.time)

theorem destroyMaterial_unregisters (s : Scene) (m : String) :
    materialRegistered (destroyMaterial s m) m = false := by
  unfold materialRegistered
  simp only [decide_eq_false_iff_not]
  intro h
  have h' : m ∈ s.materials.filter (fun x => x ≠ m) := h
  exact (mem_filter_ne_gen.mp h').2 rfl

theorem destroyMaterials_clears (s : Scene) (m : String) :
    materialRegistered (destroyMaterials s) m = false := by
  unfold materialRegistered
  simp only [decide_eq_false_iff_not]
  intro h
  cases h

/-- C5: when the same material is bound with clone = false to sub-meshes of
two different visuals (shared, non-owning references), destroying one of the
owning visuals leaves the material registered — the other sub-mesh still
references it — and only explicit DestroyMaterial / DestroyMaterials removes
it from the registry. -/
theorem C5_shared_material_survives (s : Scene) (v1 v2 i1 i2 : Nat) (m : String)
    (mat1 mat2 : Option String)
    (hm : m ∈ s.materials)
    (hv12 : v2 ≠ v1)
    (hv1 : v1 ∈ s.visuals)
    (hsm1 : (geomsOf s v1)[i1]? = some (SubMeshState.mk mat1 false))
    (hsm2 : (geomsOf s v2)[i2]? = some (SubMeshState.mk mat2 false))
    (hall1 : ∀ sm ∈ geomsOf s v1, sm.owns = false) :
    materialRegistered (destroyVisual
      (setSubMeshMaterial (setSubMeshMaterial s v1 i1 m false) v2 i2 m false) v1 false) m = true ∧
    (geomsOf (destroyVisual
      (setSubMeshMaterial (setSubMeshMaterial s v1 i1 m false) v2 i2 m false) v1 false) v2)[i2]?
      = some (SubMeshState.mk (some m) false) ∧
    materialRegistered (destroyMaterial (destroyVisual
      (setSubMeshMaterial (setSubMeshMaterial s v1 i1 m false) v2 i2 m false) v1 false) m) m
      = false ∧
    materialRegistered (destroyMaterials (destroyVisual
      (setSubMeshMaterial (setSubMeshMaterial s v1 i1 m false) v2 i2 m false) v1 false)) m
      = false := by
  have hv12' : v1 ≠ v2 := fun h => hv12 h.symm
  have hg1 : ∀ k, geomsOf (setSubMeshMaterial s v1 i1 m false) k
      = if k = v1 then (geomsOf s k).set i1 (SubMeshState.mk (some m) false) else geomsOf s k :=
    fun k => setShared_geomsOf hsm1
  have hsm2' : (geomsOf (setSubMeshMaterial s v1 i1 m false) v2)[i2]?
      = some (SubMeshState.mk mat2 false) := by
    rw [hg1 v2, if_neg hv12]
    exact hsm2
  have hmats2 : (setSubMeshMaterial (setSubMeshMaterial s v1 i1 m false) v2 i2 m false).materials
      = s.materials := by
    rw [setShared_materials hsm2', setShared_materials hsm1]
  have hvis2 : (setSubMeshMaterial (setSubMeshMaterial s v1 i1 m false) v2 i2 m false).visuals
      = s.visuals := by
    rw [setShared_visuals hsm2', setShared_visuals hsm1]
  have hg2v1 : geomsOf (setSubMeshMaterial (setSubMeshMaterial s v1 i1 m false) v2 i2 m false) v1
      = (geomsOf s v1).set i1 (SubMeshState.mk (some m) false) := by
    rw [setShared_geomsOf hsm2', if_neg hv12', hg1 v1, if_pos rfl]
  have hg2v2 : geomsOf (setSubMeshMaterial (setSubMeshMaterial s v1 i1 m false) v2 i2 m false) v2
      = (geomsOf s v2).set i2 (SubMeshState.mk (some m) false) := by
    rw [setShared_geomsOf hsm2', if_pos rfl, hg1 v2, if_neg hv12]
  have hdest : destroyVisual
      (setSubMeshMaterial (setSubMeshMaterial s v1 i1 m false) v2 i2 m false) v1 false
      = unregisterVisual
        (setSubMeshMaterial (setSubMeshMaterial s v1 i1 m false) v2 i2 m false) v1 :=
    destroyVisual_false_eq (by rw [hvis2]; exact hv1)
  have howned : ownedByVisual
      (setSubMeshMaterial (setSubMeshMaterial s v1 i1 m false) v2 i2 m false) v1 m = false := by
    apply ownedByVisual_eq_false
    intro sm hsm
    rw [hg2v1] at hsm
    rcases List.mem_or_eq_of_mem_set hsm with h | h
    · exact Or.inl (hall1 sm h)
    · subst h
      exact Or.inl rfl
  have hreg : materialRegistered (destroyVisual
      (setSubMeshMaterial (setSubMeshMaterial s v1 i1 m false) v2 i2 m false) v1 false) m
      = true := by
    rw [hdest]
    unfold materialRegistered
    simp only [decide_eq_true_eq]
    exact mem_materials_unregister.mpr ⟨by rw [hmats2]; exact hm, howned⟩
  refine ⟨hreg, ?_, destroyMaterial_unregisters _ m, destroyMaterials_clears _ m⟩
  rw [hdest, unregister_geomsOf_ne hv12, hg2v2]
  exact List.getElem?_set_self (List.getElem?_eq_some.mp hsm2).1

theorem C5_witness :
    materialRegistered (destroyVisual (setSubMeshMaterial
      (setSubMeshMaterial matScene 1 0 "mesh_material" false) 2 0 "mesh_material" false) 1 false)
      "mesh_material" = true ∧
    (geomsOf (destroyVisual (setSubMeshMaterial
      (setSubMeshMaterial matScene 1 0 "mesh_material" false) 2 0 "mesh_material" false) 1 false) 2)[0]?
      = some (SubMeshState.mk (some "mesh_material") false) ∧
    materialRegistered (destroyMaterial (destroyVisual (setSubMeshMaterial
      (setSubMeshMaterial matScene 1 0 "mesh_material" false) 2 0 "mesh_material" false) 1 false)
      "mesh_material") "mesh_material" = false := by
  have h := C5_shared_material_survives matScene 1 2 0 0 "mesh_material" none none
    (by decide) (by decide) (by decide) (by decide) (by decide) (by decide)
  exact ⟨h.1, h.2.1, h.2.2.1⟩

/-- C6: binding a material with clone = true registers a private copy under a
fresh derived name distinct from the original; the sub-mesh's material is the
clone, not the original; destroying the owning visual unregisters the clone
while the original stays registered. -/
theorem C6_clone_lifecycle (s : Scene) (v i : Nat) (m : String) (mat : Option String)
    (hm : m ∈ s.materials)
    (hv : v ∈ s.visuals)
    (hsm : (geomsOf s v)[i]? = some (SubMeshState.mk mat false))
    (hall : ∀ sm ∈ geomsOf s v, sm.owns = false) :
    freshMatName s ∉ s.materials ∧
    freshMatName s ≠ m ∧
    materialRegistered (setSubMeshMaterial s v i m true) (freshMatName s) = true ∧
    (geomsOf (setSubMeshMaterial s v i m true) v)[i]?
      = some (SubMeshState.mk (some (freshMatName s)) true) ∧
    materialRegistered (destroyVisual (setSubMeshMaterial s v i m true) v false)
      (freshMatName s) = false ∧
    materialRegistered (destroyVisual (setSubMeshMaterial s v i m true) v false) m = true := by
  have hfresh := freshMatName_not_mem s
  have hne : freshMatName s ≠ m := fun h => hfresh (h ▸ hm)
  have hmats : (setSubMeshMaterial s v i m true).materials
      = freshMatName s :: s.materials := setClone_materials hsm
  have hvis : (setSubMeshMaterial s v i m true).visuals = s.visuals := setClone_visuals hsm
  have hg : geomsOf (setSubMeshMaterial s v i m true) v
      = (geomsOf s v).set i (SubMeshState.mk (some (freshMatName s)) true) := by
    rw [setClone_geomsOf hsm, if_pos rfl]
  have hlt : i < (geomsOf s v).length := (List.getElem?_eq_some.mp hsm).1
  have hgi : (geomsOf (setSubMeshMaterial s v i m true) v)[i]?
      = some (SubMeshState.mk (some (freshMatName s)) true) := by
    rw [hg]
    exact List.getElem?_set_self hlt
  have hdest : destroyVisual (setSubMeshMaterial s v i m true) v false
      = unregisterVisual (setSubMeshMaterial s v i m true) v :=
    destroyVisual_false_eq (by rw [hvis]; exact hv)
  have hmemclone : SubMeshState.mk (some (freshMatName s)) true
      ∈ geomsOf (setSubMeshMaterial s v i m true) v := List.getElem?_mem hgi
  have howncn : ownedByVisual (setSubMeshMaterial s v i m true) v (freshMatName s) = true :=
    ownedByVisual_eq_true hmemclone rfl rfl
  have hownm : ownedByVisual (setSubMeshMaterial s v i m true) v m = false := by
    apply ownedByVisual_eq_false
    intro sm hsm'
    rw [hg] at hsm'
    rcases List.mem_or_eq_of_mem_set hsm' with h | h
    · exact Or.inl (hall sm h)
    · subst h
      exact Or.inr (fun hh => hne (Option.some.inj hh))
  refine ⟨hfresh, hne, ?_, hgi, ?_, ?_⟩
  · unfold materialRegistered
    simp only [decide_eq_true_eq]
    rw [hmats]
    exact List.mem_cons_self _ _
  · rw [hdest]
    unfold materialRegistered
    simp only [decide_eq_false_iff_not]
    intro hmem
    have hco := (mem_materials_unregister.mp hmem).2
    rw [howncn] at hco
    cases hco
  · rw [hdest]
    unfold materialRegistered
    simp only [decide_eq_true_eq]
    exact mem_materials_unregister.mpr
      ⟨by rw [hmats]; exact List.mem_cons_of_mem _ hm, hownm⟩

theorem C6_witness :
    freshMatName cloneScene ∉ cloneScene.materials ∧
    freshMatName cloneScene ≠ "mesh_material2" ∧
    materialRegistered (setSubMeshMaterial cloneScene 1 0 "mesh_material2" true)
      (freshMatName cloneScene) = true ∧
    (geomsOf (setSubMeshMaterial cloneScene 1 0 "mesh_material2" true) 1)[0]?
      = some (SubMeshState.mk (some (freshMatName cloneScene)) true) ∧
    materialRegistered (destroyVisual (setSubMeshMaterial cloneScene 1 0 "mesh_material2" true) 1 false)
      (freshMatName cloneScene) = false ∧
    materialRegistered (destroyVisual (setSubMeshMaterial cloneScene 1 0 "mesh_material2" true) 1 false)
      "mesh_material2" = true := by
  exact C6_clone_lifecycle cloneScene 1 0 "mesh_material2" none (by decide) (by decide)
    (by decide) (by decide)

theorem geomsOf_addBox {s : Scene} {v : Nat} (hge : ∀ e ∈ s.geoms, e.1 ≠ v) :
    geomsOf (addBoxGeometry s v).2 v = [SubMeshState.mk (some (freshMatName s)) true] := by
  have hany : s.geoms.any (fun e => e.1 = v) = false :=
    List.any_eq_false.mpr (fun e he => by simp [hge e he])
  show (alist (addSubMeshEntry s.geoms v (SubMeshState.mk (some (freshMatName s)) true)) v).getD []
    = _
  unfold addSubMeshEntry
  rw [if_neg (by simp [hany]), alist_append, alist_eq_none hge]
  simp [alist]

/-- C10: adding a box geometry to a visual auto-creates and registers a
default material for its sub-mesh; replacing that default via SetMaterial
with clone = false automatically unregisters the default material from the
registry even though DestroyMaterial was never called on it. -/
theorem C10_default_material_lifecycle (s : Scene) (v : Nat) (m : String)
    (hge : ∀ e ∈ s.geoms, e.1 ≠ v) :
    materialRegistered (addBoxGeometry s v).2 (addBoxGeometry s v).1 = true ∧
    geomsOf (addBoxGeometry s v).2 v = [SubMeshState.mk (some (addBoxGeometry s v).1) true] ∧
    materialRegistered (setMeshMaterial (addBoxGeometry s v).2 v m false)
      (addBoxGeometry s v).1 = false ∧
    geomsOf (setMeshMaterial (addBoxGeometry s v).2 v m false) v
      = [SubMeshState.mk (some m) false] := by
  have hname : (addBoxGeometry s v).1 = freshMatName s := rfl
  have hgb : geomsOf (addBoxGeometry s v).2 v
      = [SubMeshState.mk (some (freshMatName s)) true] := geomsOf_addBox hge
  have hsm0 : (geomsOf (addBoxGeometry s v).2 v)[0]?
      = some (SubMeshState.mk (some (freshMatName s)) true) := by
    rw [hgb]
    rfl
  have hmesh : setMeshMaterial (addBoxGeometry s v).2 v m false
      = setSubMeshMaterial (addBoxGeometry s v).2 v 0 m false := by
    unfold setMeshMaterial
    rw [hgb]
    rfl
  have hmats0 : (addBoxGeometry s v).2.materials = freshMatName s :: s.materials := rfl
  have hmatsrepl : (setSubMeshMaterial (addBoxGeometry s v).2 v 0 m false).materials
      = (addBoxGeometry s v).2.materials.filter (fun x => x ≠ freshMatName s) :=
    setReplaceOwned_materials hsm0
  refine ⟨?_, ?_, ?_, ?_⟩
  · unfold materialRegistered
    simp only [decide_eq_true_eq]
    rw [hname, hmats0]
    exact List.mem_cons_self _ _
  · rw [hgb, hname]
  · unfold materialRegistered
    simp only [decide_eq_false_iff_not]
    rw [hmesh, hname, hmatsrepl]
    intro h
    exact (mem_filter_ne_gen.mp h).2 rfl
  · rw [hmesh, setReplaceOwned_geomsOf hsm0, if_pos rfl, hgb]
    rfl

theorem C10_witness :
    materialRegistered (addBoxGeometry boxScene 1).2 (addBoxGeometry boxScene 1).1 = true ∧
    geomsOf (addBoxGeometry boxScene 1).2 1
      = [SubMeshState.mk (some (addBoxGeometry boxScene 1).1) true] ∧
    materialRegistered (setMeshMaterial (addBoxGeometry boxScene 1).2 1 "mesh_material" false)
      (addBoxGeometry boxScene 1).1 = false ∧
    geomsOf (setMeshMaterial (addBoxGeometry boxScene 1).2 1 "mesh_material" false) 1
      = [SubMeshState.mk (some "mesh_material") false] :=
  C10_default_material_lifecycle boxScene 1 "mesh_material" (by decide)
